import Mathlib

/- Verification development for the template-style logging rewrite scripts of the
   repository: scripts/fix_all_logging_phase2.py, scripts/fix_logerror_phase2.py and
   scripts/fix_logerror_systematic.py.  Buffers are modelled as lists of characters.
   The Python regular expressions of these scripts are embedded as abstract syntax
   trees interpreted by a fuel-bounded backtracking matcher with the same
   alternative ordering and greediness as the CPython engine has on these
   patterns; the pure helper loops (argument splitting, placeholder binding,
   line handling) are translated statement by statement. -/

namespace LogFix

abbrev Str := List Char

abbrev Groups := List (Nat × Str)

/- Named characters, written with hexadecimal escapes: left brace, right brace,
   double quote, backslash, newline. -/
def lb : Char := '\x7b'

def rb : Char := '\x7d'

def qc : Char := '\x22'

def bsl : Char := '\x5c'

def nlc : Char := '\x0a'

/- Python str.strip default whitespace set, restricted to ASCII. -/
def isPySpace (c : Char) : Bool :=
  c == ' ' || c == '\x09' || c == '\x0a' || c == '\x0d' || c == '\x0b' || c == '\x0c'

def pyStrip (s : Str) : Str :=
  ((s.dropWhile isPySpace).reverse.dropWhile isPySpace).reverse

/- Python regex word character, as used by the word-boundary assertion. -/
def isWordChar (c : Char) : Bool :=
  c.isAlphanum || c == '_'

/- Python str.replace: replace every non-overlapping occurrence of pat, left to
   right, continuing after each replacement.  All call sites here use a
   non-empty pat.  The step counter is structural fuel; every step consumes at
   least one character, so the input length is enough fuel. -/
def replaceAllF (pat rep : Str) : Nat → Str → Str
  | 0, s => s
  | _ + 1, [] => []
  | f + 1, c :: rest =>
    if pat ≠ [] ∧ pat.isPrefixOf (c :: rest) then
      rep ++ replaceAllF pat rep f ((c :: rest).drop pat.length)
    else
      c :: replaceAllF pat rep f rest

def replaceAll (pat rep s : Str) : Str :=
  replaceAllF pat rep s.length s

/- Helper for the placeholder scan: split a list at the first right brace,
   returning the characters before it and the characters after it. -/
def splitAtRB : Str → Option (Str × Str)
  | [] => none
  | c :: rest =>
    if c = rb then some ([], rest)
    else
      match splitAtRB rest with
      | some (n, a) => some (c :: n, a)
      | none => none

theorem splitAtRB_length {l n a : Str} (h : splitAtRB l = some (n, a)) :
    a.length < l.length := by
  induction l generalizing n a with
  | nil => simp [splitAtRB] at h
  | cons c rest ih =>
    by_cases hc : c = rb
    · simp only [splitAtRB, if_pos hc, Option.some.injEq, Prod.mk.injEq] at h
      rw [← h.2]
      simp only [List.length_cons]
      omega
    · simp only [splitAtRB, if_neg hc] at h
      cases hr : splitAtRB rest with
      | none => simp [hr] at h
      | some p =>
        obtain ⟨n', a'⟩ := p
        simp only [hr, Option.some.injEq, Prod.mk.injEq] at h
        have := ih hr
        rw [← h.2]
        simp only [List.length_cons]
        omega

/- re.findall of the pattern  backslash-lb [^rb]+ rb  : the list of placeholder
   names found by a left-to-right scan; an empty interior or a missing closing
   brace makes the scan advance one character, as the Python engine does.  The
   step counter is structural fuel; every step shortens the input, so the
   input length is enough fuel. -/
def scanPHF : Nat → Str → List Str
  | 0, _ => []
  | _ + 1, [] => []
  | f + 1, c :: rest =>
    if c = lb then
      match splitAtRB rest with
      | some (n, a) =>
        if n = [] then scanPHF f rest
        else n :: scanPHF f a
      | none => scanPHF f rest
    else scanPHF f rest

def scanPH (s : Str) : List Str :=
  scanPHF s.length s

/- Embedded regular expressions.  lit is a literal character sequence; cls s b
   matches one character whose membership in s equals b; anyc matches any one
   character (the DOTALL dot); alt prefers its left alternative; star and plus
   are greedy; lazyStar is the lazy star; grp n captures the consumed text as
   group n; nwb asserts that the next character, if any, is not a word
   character (the word-boundary assertion after a word character). -/
inductive RE where
  | lit : Str → RE
  | cls : Str → Bool → RE
  | anyc : RE
  | alt : RE → RE → RE
  | cat : RE → RE → RE
  | star : RE → RE
  | plus : RE → RE
  | lazyStar : RE → RE
  | grp : Nat → RE → RE
  | nwb : RE

/- Fuel-bounded backtracking matcher in continuation-passing style.  The
   continuation receives the remaining input and the captured groups; trying
   the continuation inside each choice point gives the same backtracking order
   as the CPython engine: left alternative first, greedy repetition longest
   first, lazy repetition shortest first.  Repetition stops when the body
   consumes nothing, as the engine does for zero-width repeats. -/
def mtch : Nat → RE → Str → Groups → (Str → Groups → Option (Groups × Str)) →
    Option (Groups × Str)
  | 0, _, _, _, _ => none
  | _ + 1, RE.lit p, s, g, k =>
    if p.isPrefixOf s then k (s.drop p.length) g else none
  | _ + 1, RE.cls cs b, s, g, k =>
    match s with
    | [] => none
    | c :: rest => if cs.contains c = b then k rest g else none
  | _ + 1, RE.anyc, s, g, k =>
    match s with
    | [] => none
    | _ :: rest => k rest g
  | f + 1, RE.alt a b, s, g, k =>
    match mtch f a s g k with
    | some r => some r
    | none => mtch f b s g k
  | f + 1, RE.cat a b, s, g, k =>
    mtch f a s g (fun s' g' => mtch f b s' g' k)
  | f + 1, RE.star a, s, g, k =>
    match mtch f a s g (fun s' g' =>
        if s'.length < s.length then mtch f (RE.star a) s' g' k else none) with
    | some r => some r
    | none => k s g
  | f + 1, RE.plus a, s, g, k =>
    mtch f a s g (fun s' g' => mtch f (RE.star a) s' g' k)
  | f + 1, RE.lazyStar a, s, g, k =>
    match k s g with
    | some r => some r
    | none =>
      mtch f a s g (fun s' g' =>
        if s'.length < s.length then mtch f (RE.lazyStar a) s' g' k else none)
  | f + 1, RE.grp n a, s, g, k =>
    mtch f a s g (fun s' g' => k s' ((n, s.take (s.length - s'.length)) :: g'))
  | _ + 1, RE.nwb, s, g, k =>
    match s with
    | [] => k s g
    | c :: _ => if isWordChar c then none else k s g

/- Attempt a match anchored at the start of s. -/
def tryAt (fuel : Nat) (re : RE) (s : Str) : Option (Groups × Str) :=
  mtch fuel re s [] (fun s' g' => some (g', s'))

/- Leftmost match: the text before the match, the captured groups and the text
   after the match, scanning candidate start positions left to right as
   re.search and re.sub do. -/
def findMatchFrom (fuel : Nat) (re : RE) : Str → Option (Str × Groups × Str)
  | [] =>
    match tryAt fuel re [] with
    | some (g, r) => some ([], g, r)
    | none => none
  | c :: rest =>
    match tryAt fuel re (c :: rest) with
    | some (g, r) => some ([], g, r)
    | none =>
      match findMatchFrom fuel re rest with
      | some (pre, g, r) => some (c :: pre, g, r)
      | none => none

/- Group lookup; group 0 is the whole match.  The most recent capture is first
   in the list, matching the engine. -/
def lookupG (g : Groups) (n : Nat) : Str :=
  match g.find? (fun p => p.1 = n) with
  | some p => p.2
  | none => []

/- re.sub with a functional replacement that also reports how many times the
   replacer signalled a change, scanning left to right and continuing after
   each match, never rescanning replacement text.  The step counter is
   structural fuel; every accepted match consumes at least one character, so
   the input length is enough fuel. -/
def subAllCountF (fuel : Nat) (re : RE) (rp : Groups → Str × Nat) :
    Nat → Str → Str × Nat
  | 0, s => (s, 0)
  | f + 1, s =>
    match findMatchFrom fuel re s with
    | none => (s, 0)
    | some (pre, g, rest) =>
      if rest.length < s.length then
        let t := rp g
        let out := subAllCountF fuel re rp f rest
        (pre ++ t.1 ++ out.1, t.2 + out.2)
      else (s, 0)

def subAllCount (fuel : Nat) (re : RE) (rp : Groups → Str × Nat) (s : Str) :
    Str × Nat :=
  subAllCountF fuel re rp s.length s

/- Shared regex building blocks for the logging-call patterns. -/

def recvOrch : Str := ("TradingLogOrchestrator.Instance.").toList

def recvLogger : Str := ("_logger.").toList

def wsChars : Str := [' ', '\x09', '\x0a', '\x0d', '\x0b', '\x0c']

def reWS : RE := RE.star (RE.cls wsChars true)

/- One template-body atom of fix_all_logging_phase2: a character other than a
   quote or backslash, or a backslash followed by any character (the pattern is
   compiled with DOTALL). -/
def atomBody : RE :=
  RE.alt (RE.cls [qc, bsl] false) (RE.cat (RE.lit [bsl]) RE.anyc)

/- Group 1 of the logging-call patterns: the receiver alternation, the method
   name and the opening parenthesis. -/
def grpRecv (m : Str) : RE :=
  RE.grp 1 (RE.cat (RE.alt (RE.lit recvOrch) (RE.lit recvLogger))
    (RE.lit (m ++ ['('])))

namespace FixAllLoggingPhase2

/- Group 2 of the pattern in fix_logging_call, line 33: a quoted template that
   contains at least one brace-delimited placeholder with a non-empty,
   brace-free name. -/
def tmplRE : RE :=
  RE.grp 2 (RE.cat (RE.lit [qc]) (RE.cat (RE.star atomBody)
    (RE.cat (RE.lit [lb]) (RE.cat (RE.plus (RE.cls [rb] false))
      (RE.cat (RE.lit [rb]) (RE.cat (RE.star atomBody) (RE.lit [qc])))))))

/- Group 3: one or more comma-led parameters whose characters exclude commas
   and closing parentheses. -/
def paramsRE : RE :=
  RE.grp 3 (RE.plus (RE.cat reWS (RE.cat (RE.lit [','])
    (RE.cat reWS (RE.plus (RE.cls [',', ')'] false))))))

/- Group 4: optional whitespace and the closing parenthesis. -/
def sfxRE : RE := RE.grp 4 (RE.cat reWS (RE.lit [')']))

/- The full pattern of fix_logging_call, line 33, for one method name. -/
def pat (m : Str) : RE :=
  RE.grp 0 (RE.cat (grpRecv m) (RE.cat tmplRE (RE.cat paramsRE sfxRE)))

/- The parameter splitter of fix_logging_call, lines 52 to 77: a single scan
   tracking parenthesis depth, a quote flag toggled by a quote whose preceding
   input character is not a backslash, and splitting at commas at depth zero
   outside quotes; each produced argument is stripped and empty arguments are
   dropped.  prev is the previously scanned input character. -/
def splitParamsAux : Str → Option Char → Str → Int → Bool → List Str
  | [], _, cur, _, _ =>
    if pyStrip cur ≠ [] then [pyStrip cur] else []
  | c :: rest, prev, cur, depth, inq =>
    if c = qc ∧ (prev = none ∨ prev ≠ some bsl) then
      splitParamsAux rest (some c) (cur ++ [c]) depth (!inq)
    else if c = '(' ∧ inq = false then
      splitParamsAux rest (some c) (cur ++ [c]) (depth + 1) inq
    else if c = ')' ∧ inq = false then
      splitParamsAux rest (some c) (cur ++ [c]) (depth - 1) inq
    else if c = ',' ∧ depth = 0 ∧ inq = false then
      (if pyStrip cur ≠ [] then [pyStrip cur] else []) ++
        splitParamsAux rest (some c) [] depth inq
    else
      splitParamsAux rest (some c) (cur ++ [c]) depth inq

def split_params (s : Str) : List Str :=
  splitParamsAux s none [] 0 false

/- The identifier set of line 82 used to detect a trailing exception
   argument. -/
def auxSet : List Str := [("ex").toList, ("exception").toList, ("e").toList]

/- The placeholder-binding loop of lines 88 to 91: the i-th placeholder
   occurrence is paired with the i-th argument when one exists, and every
   occurrence of that placeholder name in the template body is replaced by the
   braced argument text. -/
def bindLoop (phs params : List Str) (t : Str) : Str :=
  phs.enum.foldl (fun acc ip =>
    if ip.1 < params.length then
      replaceAll (lb :: ip.2 ++ [rb]) (lb :: params.getD ip.1 [] ++ [rb]) acc
    else acc) t

/- The replacer of fix_logging_call, lines 35 to 107, returning the
   replacement text and the change count it adds. -/
def replacer (g : Groups) : Str × Nat :=
  let pfx := lookupG g 1
  let tmpl := lookupG g 2
  let params := lookupG g 3
  let sfx := lookupG g 4
  let phs := scanPH tmpl
  if phs = [] then (lookupG g 0, 0)
  else
    let paramStr := pyStrip ((pyStrip params).dropWhile (· == ','))
    let paramList := split_params paramStr
    let popped :=
      match paramList.getLast? with
      | some lp =>
        if pyStrip lp ∈ auxSet then (some lp, paramList.dropLast)
        else (none, paramList)
      | none => (none, paramList)
    let tbody := bindLoop phs popped.2 ((tmpl.drop 1).dropLast)
    match popped.1 with
    | some ea => (pfx ++ ['$', qc] ++ tbody ++ [qc, ',', ' '] ++ ea ++ sfx, 1)
    | none => (pfx ++ ['$', qc] ++ tbody ++ [qc] ++ sfx, 1)

def loggingMethods : List Str :=
  [("LogError").toList, ("LogInfo").toList, ("LogWarning").toList,
   ("LogDebug").toList, ("LogTrace").toList]

/- fix_logging_call, lines 23 to 111: for each method in order, substitute
   every match of the pattern with the replacer output, accumulating the
   change count. -/
def fix_logging_call (fuel : Nat) (content : Str) : Str × Nat :=
  loggingMethods.foldl (fun acc m =>
    let r := subAllCount fuel (pat m) replacer acc.1
    (r.1, acc.2 + r.2)) (content, 0)

/- process_file, lines 113 to 144, modelled as the written files in order: a
   backup write of the original content followed by the main write of the
   fixed content when at least one change happened, and no writes otherwise.
   true marks the backup path, false the original path. -/
def process_file (fuel : Nat) (content : Str) : List (Bool × Str) :=
  let r := fix_logging_call fuel content
  if r.2 > 0 then [(true, content), (false, r.1)] else []

end FixAllLoggingPhase2

/- Python str.split on the newline character. -/
def splitNL : Str → List Str
  | [] => [[]]
  | c :: rest =>
    if c = nlc then [] :: splitNL rest
    else
      match splitNL rest with
      | [] => [[c]]
      | p :: ps => (c :: p) :: ps

/- Python newline-join of a list of lines. -/
def joinNL : List Str → Str
  | [] => []
  | [x] => x
  | x :: y :: t => x ++ nlc :: joinNL (y :: t)

/- Python file readlines: split after every newline, keeping it; an empty
   content gives no lines. -/
def splitKeepNL : Str → List Str
  | [] => []
  | c :: rest =>
    if c = nlc then [c] :: splitKeepNL rest
    else
      match splitKeepNL rest with
      | [] => [[c]]
      | p :: ps => (c :: p) :: ps

/- Python str.rstrip with the newline character. -/
def rstripNL (s : Str) : Str :=
  (s.reverse.dropWhile (· == nlc)).reverse

namespace FixLogerrorPhase2

/- The pattern of fix_logging_call, line 52, compiled without flags: group 1
   is the receiver, method name and opening parenthesis, group 2 the quoted
   message without its quotes, group 3 a lazy run of non-newline characters
   and group 4 the closing parenthesis with an optional semicolon. -/
def pat (m : Str) : RE :=
  RE.grp 0 (RE.cat (grpRecv m) (RE.cat (RE.lit [qc])
    (RE.cat (RE.grp 2 (RE.plus (RE.cls [qc] false)))
      (RE.cat (RE.lit [qc])
        (RE.cat (RE.grp 3 (RE.lazyStar (RE.cls [nlc] false)))
          (RE.grp 4 (RE.cat (RE.lit [')'])
            (RE.alt (RE.lit [';']) (RE.lit [])))))))))

/- The parameter splitter of fix_logging_call, lines 78 to 98: like the
   splitter of fix_all_logging_phase2 but the escape test looks at the last
   character of the argument built so far. -/
def splitParamsAux : Str → Str → Int → Bool → List Str
  | [], cur, _, _ =>
    if pyStrip cur ≠ [] then [pyStrip cur] else []
  | c :: rest, cur, depth, inq =>
    if c = qc ∧ (cur = [] ∨ cur.getLast? ≠ some bsl) then
      splitParamsAux rest (cur ++ [c]) depth (!inq)
    else if c = '(' ∧ inq = false then
      splitParamsAux rest (cur ++ [c]) (depth + 1) inq
    else if c = ')' ∧ inq = false then
      splitParamsAux rest (cur ++ [c]) (depth - 1) inq
    else if c = ',' ∧ depth = 0 ∧ inq = false then
      (if pyStrip cur ≠ [] then [pyStrip cur] else []) ++
        splitParamsAux rest [] depth inq
    else
      splitParamsAux rest (cur ++ [c]) depth inq

def split_params (s : Str) : List Str :=
  splitParamsAux s [] 0 false

/- Python str.join with a comma and a space. -/
def joinCommaSp : List Str → Str
  | [] => []
  | [x] => x
  | x :: y :: t => x ++ [',', ' '] ++ joinCommaSp (y :: t)

/- fix_logging_call, lines 49 to 122: search for the pattern in the line; on
   a match with placeholders whose occurrence count does not exceed the split
   parameter count, rebuild the whole line from the reconstructed call,
   appending all parameters left over after binding; otherwise return the line
   unchanged.  The boolean is the changed flag. -/
def fix_logging_call (fuel : Nat) (line : Str) (m : Str) : Str × Bool :=
  match findMatchFrom fuel (pat m) line with
  | none => (line, false)
  | some (_, g, _) =>
    let pfx := lookupG g 1
    let msg := lookupG g 2
    let paramsSection := lookupG g 3
    let sfx := lookupG g 4
    let phs := scanPH msg
    if phs = [] then (line, false)
    else
      let ps0 := pyStrip paramsSection
      let ps1 := if ps0.head? = some ',' then pyStrip (ps0.drop 1) else ps0
      let params := if ps1 ≠ [] then split_params ps1 else []
      if phs.length ≤ params.length then
        let newMsg := FixAllLoggingPhase2.bindLoop phs params msg
        let remaining := params.drop phs.length
        if remaining ≠ [] then
          (pfx ++ ['$', qc] ++ newMsg ++ [qc, ',', ' '] ++
            joinCommaSp remaining ++ sfx, true)
        else
          (pfx ++ ['$', qc] ++ newMsg ++ [qc] ++ sfx, true)
      else (line, false)

/- fix_line, lines 124 to 137: apply fix_logging_call for each method in
   order, threading the line and counting changes. -/
def fix_line (fuel : Nat) (line : Str) : Str × Nat :=
  FixAllLoggingPhase2.loggingMethods.foldl (fun acc m =>
    let r := fix_logging_call fuel acc.1 m
    if r.2 then (r.1, acc.2 + 1) else acc) (line, 0)

/- process_file, lines 139 to 176, modelled as the written files in order.
   The file is read as lines keeping their newlines; each line is fixed after
   stripping trailing newlines; when some line changed, the backup is written
   as every original line with a newline appended, then the fixed lines are
   written the same way.  true marks the backup path, false the original
   path. -/
def process_file (fuel : Nat) (content : Str) : List (Bool × Str) :=
  let lines := splitKeepNL content
  let results := lines.map (fun l => fix_line fuel (rstripNL l))
  if results.any (fun r => r.2 > 0) then
    [(true, (lines.map (· ++ [nlc])).foldr (· ++ ·) []),
     (false, (results.map (·.1 ++ [nlc])).foldr (· ++ ·) [])]
  else []

end FixLogerrorPhase2

namespace FixLogerrorSystematic

/- Message body of pattern 1, line 29: non-quote characters containing at
   least one brace-delimited placeholder. -/
def msg1RE : RE :=
  RE.cat (RE.plus (RE.cls [qc] false))
    (RE.cat (RE.lit [lb]) (RE.cat (RE.plus (RE.cls [rb] false))
      (RE.cat (RE.lit [rb]) (RE.star (RE.cls [qc] false)))))

/- Pattern 1, line 29: a receiver-prefixed LogError call with a placeholder
   message, one comma-separated value and a trailing ex argument. -/
def pat1 : RE :=
  RE.grp 0 (RE.cat (grpRecv (("LogError").toList))
    (RE.cat (RE.lit [qc]) (RE.cat (RE.grp 2 msg1RE)
      (RE.cat (RE.lit [qc])
        (RE.cat (RE.grp 3 (RE.cat reWS (RE.cat (RE.lit [',']) reWS)))
          (RE.cat (RE.grp 4 (RE.plus (RE.cls [','] false)))
            (RE.cat (RE.grp 5 (RE.cat (RE.lit [',']) reWS))
              (RE.grp 6 (RE.cat (RE.lit (("ex").toList)) RE.nwb)))))))))

/- Message body of pattern 2, line 47: non-quote characters with two
   placeholders. -/
def msg2RE : RE :=
  RE.cat (RE.plus (RE.cls [qc] false))
    (RE.cat (RE.lit [lb]) (RE.cat (RE.plus (RE.cls [rb] false))
      (RE.cat (RE.lit [rb]) (RE.cat (RE.star (RE.cls [qc] false))
        (RE.cat (RE.lit [lb]) (RE.cat (RE.plus (RE.cls [rb] false))
          (RE.cat (RE.lit [rb]) (RE.star (RE.cls [qc] false)))))))))

/- Pattern 2, line 47: like pattern 1 with two values before ex. -/
def pat2 : RE :=
  RE.grp 0 (RE.cat (grpRecv (("LogError").toList))
    (RE.cat (RE.lit [qc]) (RE.cat (RE.grp 2 msg2RE)
      (RE.cat (RE.lit [qc])
        (RE.cat (RE.grp 3 (RE.cat reWS (RE.cat (RE.lit [',']) reWS)))
          (RE.cat (RE.grp 4 (RE.plus (RE.cls [','] false)))
            (RE.cat (RE.grp 5 (RE.cat (RE.lit [',']) reWS))
              (RE.cat (RE.grp 6 (RE.plus (RE.cls [','] false)))
                (RE.cat (RE.grp 7 (RE.cat (RE.lit [',']) reWS))
                  (RE.grp 8 (RE.cat (RE.lit (("ex").toList)) RE.nwb)))))))))))

/- Pattern 3, line 67: a receiver-prefixed LogError call whose first argument
   is ex followed by a quoted message. -/
def pat3 : RE :=
  RE.grp 0 (RE.cat (grpRecv (("LogError").toList))
    (RE.cat (RE.grp 2 (RE.cat (RE.lit (("ex").toList))
      (RE.cat reWS (RE.cat (RE.lit [',']) reWS))))
      (RE.cat (RE.lit [qc])
        (RE.cat (RE.grp 3 (RE.plus (RE.cls [qc] false))) (RE.lit [qc])))))

/- Processing of backslash escapes in a re.sub string replacement: the known
   single-character escapes are decoded; other escaped characters are kept
   verbatim here, and the only escape the development relies on is the
   newline.  Escapes of other ASCII letters would raise in the source and are
   not exercised by any theorem below. -/
def procRepl : Str → Str
  | [] => []
  | [c] => [c]
  | c :: d :: rest =>
    if c = bsl then
      if d = 'n' then nlc :: procRepl rest
      else if d = 't' then '\x09' :: procRepl rest
      else if d = 'r' then '\x0d' :: procRepl rest
      else if d = bsl then bsl :: procRepl rest
      else c :: d :: procRepl rest
    else c :: procRepl (d :: rest)

/- The pattern 1 rewrite of lines 30 to 44: when the message has exactly one
   placeholder, the whole line becomes the receiver prefix, the interpolated
   message with the stripped value substituted for every occurrence of the
   placeholder, a closing quote, a comma and ex. -/
def rewrite1 (g : Groups) : Str :=
  let pfx := lookupG g 1
  let msg := lookupG g 2
  let v := pyStrip (lookupG g 4)
  let nm :=
    match scanPH msg with
    | p0 :: _ => replaceAll (lb :: p0 ++ [rb]) (lb :: v ++ [rb]) msg
    | [] => msg
  pfx ++ ['$', qc] ++ nm ++ [qc, ',', ' ', 'e', 'x']

/- The pattern 2 rewrite of lines 48 to 64 with two placeholders and two
   stripped values. -/
def rewrite2 (g : Groups) : Str :=
  let pfx := lookupG g 1
  let msg := lookupG g 2
  let v1 := pyStrip (lookupG g 4)
  let v2 := pyStrip (lookupG g 6)
  let nm :=
    match scanPH msg with
    | p0 :: p1 :: _ =>
      replaceAll (lb :: p1 ++ [rb]) (lb :: v2 ++ [rb])
        (replaceAll (lb :: p0 ++ [rb]) (lb :: v1 ++ [rb]) msg)
    | _ => msg
  pfx ++ ['$', qc] ++ nm ++ [qc, ',', ' ', 'e', 'x']

/- One line of fix_logerror_patterns, lines 24 to 103: pattern 1 applies when
   it matches and the message has exactly one placeholder; otherwise pattern 2
   with exactly two; otherwise pattern 3 replaces every occurrence with a
   replacement string built from the first match and subject to backslash
   escape processing.  The pattern 4 branch of lines 77 to 103 only prints and
   never modifies the line.  The Nat is the change count the line adds. -/
def transformLine (fuel : Nat) (line : Str) : Str × Nat :=
  let step1 : Option Str :=
    match findMatchFrom fuel pat1 line with
    | some (_, g, _) =>
      if (scanPH (lookupG g 2)).length = 1 then some (rewrite1 g) else none
    | none => none
  match step1 with
  | some l => (l, 1)
  | none =>
    let step2 : Option Str :=
      match findMatchFrom fuel pat2 line with
      | some (_, g, _) =>
        if (scanPH (lookupG g 2)).length = 2 then some (rewrite2 g) else none
      | none => none
    match step2 with
    | some l => (l, 1)
    | none =>
      match findMatchFrom fuel pat3 line with
      | some (_, g, _) =>
        let rp := procRepl (lookupG g 1 ++ [qc] ++ lookupG g 3 ++
          [qc, ',', ' ', 'e', 'x'])
        ((subAllCount fuel pat3 (fun _ => (rp, 0)) line).1, 1)
      | none => (line, 0)

/- fix_logerror_patterns, lines 19 to 105: split the content on newlines,
   rewrite each line independently, and join the results with newlines,
   summing the change counts. -/
def fix_logerror_patterns (fuel : Nat) (content : Str) : Str × Nat :=
  let results := (splitNL content).map (transformLine fuel)
  (joinNL (results.map (·.1)), (results.map (·.2)).sum)

end FixLogerrorSystematic

/- Default fuel for concrete evaluations; the matcher needs fuel linear in the
   input length and these inputs are far shorter. -/
def FUEL : Nat := 2000

/- Concrete call texts used by the theorems below.  Brace characters are
   written with hexadecimal escapes. -/
def c1in : Str := ("_logger.LogError(\"A \x7ba\x7d \x7bb\x7d\", v)").toList

def c1outA : Str := ("_logger.LogError($\"A \x7bv\x7d \x7bb\x7d\")").toList

def c2in : Str :=
  ("_logger.LogError(\"Nested \x7bv\x7d\", Compute(a, b), ex)").toList

def c2outA : Str :=
  ("_logger.LogError($\"Nested \x7bCompute(a, b\x7d\"), ex)").toList

def c2claimed : Str :=
  ("_logger.LogError($\"Nested \x7bCompute(a, b)\x7d\", ex)").toList

def c2args : Str := ("Compute(a, b), ex").toList

def c3buf : Str :=
  ("_logger.LogError(\"A \x7bp\x7d\", _logger.LogError(\"B \x7bq\x7d\", z), ex)").toList

def c3skip : Str := ("_logger.LogError($\"A \x7bx\x7d\", ex)").toList

def c4in : Str := ("_logger.LogError(\"X \x7bx\x7d\", \"unterminated, ex)").toList

def c4out : Str :=
  ("_logger.LogError($\"X \x7b\"unterminated, ex\x7d\")").toList

def c5inAux : Str := ("_logger.LogError(\"A \x7bx\x7d\", a, ex)").toList

def c5outAux : Str := ("_logger.LogError($\"A \x7ba\x7d\", ex)").toList

def c5inDrop : Str := ("_logger.LogError(\"A \x7bx\x7d\", a, b)").toList

def c5outDrop : Str := ("_logger.LogError($\"A \x7ba\x7d\")").toList

def c6file : Str := ("_logger.LogError(\"A \x7bx\x7d\", y);\x0a").toList

def c6new : Str := ("_logger.LogError($\"A \x7by\x7d\");\x0a").toList

def c7in : Str := ("_logger.LogError(\"Value is \x7bx\x7d\", x, ex)").toList

def c7out : Str := ("_logger.LogError($\"Value is \x7bx\x7d\", ex)").toList

def c8in : Str :=
  ("_logger.LogError(\"\x7bx\x7d \x7bx\x7d \x7by\x7d\", a, b, c)").toList

def c8out : Str := ("_logger.LogError($\"\x7ba\x7d \x7ba\x7d \x7bc\x7d\")").toList

def c8perName : Str :=
  ("_logger.LogError($\"\x7ba\x7d \x7ba\x7d \x7bb\x7d\")").toList

def c8in2 : Str := ("_logger.LogError(\"\x7bx\x7d \x7bx\x7d\", a, ex)").toList

def c8out2 : Str := ("_logger.LogError($\"\x7ba\x7d \x7ba\x7d\", ex)").toList

def c9bare : Str := ("LogError(\"A \x7ba\x7d\", a)").toList

def c10line : Str := ("_logger.LogError(ex, \"A\\nB\");").toList

/- Structural facts about the matcher used for the receiver-requirement
   theorem: a successful match of a literal means the literal starts the
   input, and successful matches of groups, concatenations and alternations
   come from successful matches of their parts at the same input. -/
theorem mtch_lit_some {f : Nat} {p s : Str} {g : Groups}
    {k : Str → Groups → Option (Groups × Str)} {r : Groups × Str}
    (h : mtch f (RE.lit p) s g k = some r) : p.isPrefixOf s = true := by
  cases f with
  | zero => simp [mtch] at h
  | succ f =>
    by_cases hp : p.isPrefixOf s
    · exact hp
    · simp [mtch, hp] at h

theorem mtch_cat_some {f : Nat} {a b : RE} {s : Str} {g : Groups}
    {k : Str → Groups → Option (Groups × Str)} {r : Groups × Str}
    (h : mtch f (RE.cat a b) s g k = some r) :
    ∃ f' k', mtch f' a s g k' = some r := by
  cases f with
  | zero => simp [mtch] at h
  | succ f =>
    simp only [mtch] at h
    exact ⟨f, _, h⟩

theorem mtch_grp_some {f : Nat} {n : Nat} {a : RE} {s : Str} {g : Groups}
    {k : Str → Groups → Option (Groups × Str)} {r : Groups × Str}
    (h : mtch f (RE.grp n a) s g k = some r) :
    ∃ f' k', mtch f' a s g k' = some r := by
  cases f with
  | zero => simp [mtch] at h
  | succ f =>
    simp only [mtch] at h
    exact ⟨f, _, h⟩

theorem mtch_alt_some {f : Nat} {a b : RE} {s : Str} {g : Groups}
    {k : Str → Groups → Option (Groups × Str)} {r : Groups × Str}
    (h : mtch f (RE.alt a b) s g k = some r) :
    (∃ f', mtch f' a s g k = some r) ∨ (∃ f', mtch f' b s g k = some r) := by
  cases f with
  | zero => simp [mtch] at h
  | succ f =>
    simp only [mtch] at h
    cases ha : mtch f a s g k with
    | some r' =>
      rw [ha] at h
      exact Or.inl ⟨f, by rw [ha]; exact h⟩
    | none =>
      rw [ha] at h
      exact Or.inr ⟨f, h⟩

/- Every pattern embedded above has the shape group 0 of (receiver group
   followed by a tail), so a match anchored at s can only succeed when one of
   the two receiver texts starts s. -/
theorem grpRecv_match_starts {f : Nat} {m : Str} {t : RE} {s : Str}
    {g : Groups} {k : Str → Groups → Option (Groups × Str)} {r : Groups × Str}
    (h : mtch f (RE.grp 0 (RE.cat (grpRecv m) t)) s g k = some r) :
    recvOrch.isPrefixOf s = true ∨ recvLogger.isPrefixOf s = true := by
  obtain ⟨f1, k1, h1⟩ := mtch_grp_some h
  obtain ⟨f2, k2, h2⟩ := mtch_cat_some h1
  simp only [grpRecv] at h2
  obtain ⟨f3, k3, h3⟩ := mtch_grp_some h2
  obtain ⟨f4, k4, h4⟩ := mtch_cat_some h3
  rcases mtch_alt_some h4 with ⟨f5, h5⟩ | ⟨f5, h5⟩
  · exact Or.inl (mtch_lit_some h5)
  · exact Or.inr (mtch_lit_some h5)

/- Facts about splitting on newlines: the split is never empty, splitting an
   appended newline adds the counts, and joining then splitting at least
   preserves the count. -/
theorem splitNL_ne_nil (s : Str) : splitNL s ≠ [] := by
  induction s with
  | nil => simp [splitNL]
  | cons c rest ih =>
    by_cases hc : c = nlc
    · simp [splitNL, hc]
    · simp only [splitNL, if_neg hc]
      cases h : splitNL rest with
      | nil => simp
      | cons p ps => simp

theorem splitNL_length_append (a r : Str) :
    (splitNL (a ++ nlc :: r)).length = (splitNL a).length + (splitNL r).length := by
  induction a with
  | nil =>
    simp [splitNL]
    omega
  | cons c a' ih =>
    by_cases hc : c = nlc
    · simp only [List.cons_append, splitNL, if_pos hc, List.length_cons,
        List.append_eq, ih]
      omega
    · simp only [List.cons_append, splitNL, if_neg hc]
      cases h1 : splitNL (a' ++ nlc :: r) with
      | nil => exact absurd h1 (splitNL_ne_nil _)
      | cons p ps =>
        cases h2 : splitNL a' with
        | nil => exact absurd h2 (splitNL_ne_nil _)
        | cons q qs =>
          rw [h1, h2] at ih
          simp only [List.length_cons] at ih ⊢
          omega

theorem joinNL_length_le (L : List Str) (hL : L ≠ []) :
    L.length ≤ (splitNL (joinNL L)).length := by
  induction L with
  | nil => exact absurd rfl hL
  | cons x t ih =>
    cases t with
    | nil =>
      simp only [joinNL, List.length_cons, List.length_nil]
      exact List.length_pos.mpr (splitNL_ne_nil x)
    | cons y t' =>
      have h2 := ih (by simp)
      simp only [joinNL, splitNL_length_append, List.length_cons] at h2 ⊢
      have h1 : 1 ≤ (splitNL x).length :=
        List.length_pos.mpr (splitNL_ne_nil x)
      omega

/-- Claim C1 counterexample: the call text with two distinct placeholder names
and a single bound-eligible argument is not left byte-for-byte unchanged by
fix_all_logging_phase2; it is rewritten even though the placeholder count
exceeds the argument count. -/
theorem c1_mismatch_not_unchanged :
    (FixAllLoggingPhase2.fix_logging_call FUEL c1in).1 ≠ c1in := by decide

/-- Claim C1 amended: fix_all_logging_phase2 has no placeholder-argument
mismatch check: a call with more placeholders than arguments is still
rewritten, binding only the first placeholder occurrences and leaving the rest
verbatim inside an interpolated template; fix_logerror_phase2 does compare the
placeholder occurrence count against the argument count and leaves the line
unchanged when it exceeds it, without any distinguished
PlaceholderArgumentMismatch value. -/
theorem c1_mismatch_behavior :
    FixAllLoggingPhase2.fix_logging_call FUEL c1in = (c1outA, 1) ∧
    FixLogerrorPhase2.fix_line FUEL c1in = (c1in, 0) := by decide

/-- Claim C2 counterexample: rewriting the nested-call example does not yield
the claimed output with the nested call bound intact. -/
theorem c2_nested_not_intact :
    (FixAllLoggingPhase2.fix_logging_call FUEL c2in).1 ≠ c2claimed := by decide

/-- Claim C2 amended: the character-scan splitter itself does not break inside
the nested parentheses, splitting the argument text into the nested call and
the trailing identifier; but the call-site pattern cannot include a closing
parenthesis inside its parameter section, so the match for the nested-call
example ends at the first closing parenthesis and the rewrite mangles the
call instead of producing the claimed output. -/
theorem c2_splitter_vs_pattern :
    FixAllLoggingPhase2.split_params c2args =
      [("Compute(a, b)").toList, ("ex").toList] ∧
    FixAllLoggingPhase2.fix_logging_call FUEL c2in = (c2outA, 1) := by decide

/-- Claim C3 counterexample: applying fix_all_logging_phase2 to its own output
on the nested-call buffer produces one further rewrite on the second pass, so
the engine is not idempotent. -/
theorem c3_second_pass_rewrites :
    (FixAllLoggingPhase2.fix_logging_call FUEL
      ((FixAllLoggingPhase2.fix_logging_call FUEL c3buf).1)).2 = 1 := by decide

/-- Claim C3 amended: a call whose template carries the interpolation marker
the engine produces is never re-matched, because the pattern requires the
opening quote immediately after the opening parenthesis; but rewriting is not
idempotent in general, since a rewrite that inlines a nested logging call into
a template can expose a new match for a later pass. -/
theorem c3_marker_skipped :
    FixAllLoggingPhase2.fix_logging_call FUEL c3skip = (c3skip, 0) := by decide

/-- Claim C4 counterexample: the unterminated-quote example is not left
unchanged; there is no distinguished failure value and no skipped outcome. -/
theorem c4_unbalanced_not_unchanged :
    (FixAllLoggingPhase2.fix_logging_call FUEL c4in).1 ≠ c4in := by decide

/-- Claim C4 amended: the splitter is a total scan that indeed never raises,
but it never fails either: an unterminated quote makes it glue the remaining
text into one argument and the call is rewritten, inlining the unterminated
literal into the template, rather than being reported unparsable and left
unchanged. -/
theorem c4_unbalanced_rewritten :
    FixAllLoggingPhase2.fix_logging_call FUEL c4in = (c4out, 1) := by decide

/-- Claim C5 counterexample: with one leftover argument that is not in the
auxiliary-identifier set, the call is not left unchanged; it is rewritten and
the leftover argument is dropped. -/
theorem c5_leftover_not_unchanged :
    (FixAllLoggingPhase2.fix_logging_call FUEL c5inDrop).1 ≠ c5inDrop := by
  decide

/-- Claim C5 amended: a final argument in the auxiliary set is popped before
binding and preserved as a trailing separate argument; but other leftover
arguments do not make the binding fail: they are silently dropped and the call
is rewritten anyway. -/
theorem c5_auxiliary_behavior :
    FixAllLoggingPhase2.fix_logging_call FUEL c5inAux = (c5outAux, 1) ∧
    FixAllLoggingPhase2.fix_logging_call FUEL c5inDrop = (c5outDrop, 1) := by
  decide

/-- Claim C6: evaluated at the failing input, fix_logerror_phase2 writes the
backup before the original, but the backup content is the original content
with an extra newline appended to every line read, so it is not exactly the
original file content. -/
theorem c6_backup_not_original :
    FixLogerrorPhase2.process_file FUEL c6file =
      [(true, c6file ++ [nlc]), (false, c6new)] ∧
    c6file ++ [nlc] ≠ c6file := by decide

/-- Claim C7: the example call with one placeholder, one bound argument and a
trailing auxiliary argument is rewritten to the method prefix, the
interpolation marker before the template, the substituted template, a comma,
the auxiliary argument and the original closing delimiter. -/
theorem c7_example_rewrite :
    FixAllLoggingPhase2.fix_logging_call FUEL c7in = (c7out, 1) := by decide

/-- Claim C8 counterexample: with a repeated placeholder name followed by a
distinct one, the later distinct placeholder is bound to the third argument,
not the second: arguments are consumed per occurrence, not per distinct name,
and the skipped argument disappears. -/
theorem c8_consumed_per_occurrence :
    (FixAllLoggingPhase2.fix_logging_call FUEL c8in).1 = c8out ∧
    c8out ≠ c8perName := by decide

/-- Claim C8 amended: every occurrence of a repeated name is substituted
identically with the first bound argument, because the first substitution
replaces all occurrences and later ones find nothing; but one argument is
consumed per occurrence, so a repeated name skips over its extra argument
rather than consuming one argument per distinct name. -/
theorem c8_repeated_name_behavior :
    FixAllLoggingPhase2.fix_logging_call FUEL c8in = (c8out, 1) ∧
    FixAllLoggingPhase2.fix_logging_call FUEL c8in2 = (c8out2, 1) := by decide

/-- Claim C9: every embedded call pattern has the shape group 0 of the
receiver group followed by a tail, and a match anchored at a position can only
succeed when one of the two receiver texts starts there; a bare call without a
receiver is left unchanged by all three scripts. -/
theorem c9_receiver_required :
    (∀ (f : Nat) (m : Str) (t : RE) (s : Str),
      (tryAt f (RE.grp 0 (RE.cat (grpRecv m) t)) s).isSome = true →
      recvOrch.isPrefixOf s = true ∨ recvLogger.isPrefixOf s = true) ∧
    FixAllLoggingPhase2.fix_logging_call FUEL c9bare = (c9bare, 0) ∧
    FixLogerrorPhase2.fix_line FUEL c9bare = (c9bare, 0) ∧
    FixLogerrorSystematic.fix_logerror_patterns FUEL c9bare = (c9bare, 0) := by
  refine ⟨fun f m t s hs => ?_, by decide, by decide, by decide⟩
  cases h : tryAt f (RE.grp 0 (RE.cat (grpRecv m) t)) s with
  | none => rw [h] at hs; simp at hs
  | some r => exact grpRecv_match_starts h

/-- Witness for claim C9: the receiver-requirement theorem applied to the
concrete pattern tail of fix_all_logging_phase2 and the concrete example
input, whose match succeeds. -/
theorem c9_receiver_required_witness :
    (tryAt 2000 (RE.grp 0 (RE.cat (grpRecv (("LogError").toList))
      (RE.cat FixAllLoggingPhase2.tmplRE
        (RE.cat FixAllLoggingPhase2.paramsRE FixAllLoggingPhase2.sfxRE))))
      c7in).isSome = true ∧
    (recvOrch.isPrefixOf c7in = true ∨ recvLogger.isPrefixOf c7in = true) :=
  ⟨by decide, c9_receiver_required.1 2000 (("LogError").toList)
    (RE.cat FixAllLoggingPhase2.tmplRE
      (RE.cat FixAllLoggingPhase2.paramsRE FixAllLoggingPhase2.sfxRE))
    c7in (by decide)⟩

/-- Claim C10 counterexample: a line whose message carries a backslash-n
escape is rewritten by the pattern 3 branch into text containing a real
newline, so the output has two lines where the input had one. -/
theorem c10_newline_injected :
    (splitNL (FixLogerrorSystematic.fix_logerror_patterns FUEL c10line).1).length = 2 ∧
    (splitNL c10line).length = 1 := by decide

/-- Claim C10 amended: the line-based rewriter never decreases the number of
lines, since it splits the input on newlines, rewrites the pieces
independently and joins them back; but a rewritten piece can itself contain a
newline introduced by replacement escape processing, so the count can
increase. -/
theorem c10_line_count_lower_bound (fuel : Nat) (c : Str) :
    (splitNL c).length ≤
      (splitNL (FixLogerrorSystematic.fix_logerror_patterns fuel c).1).length := by
  have hne : ((splitNL c).map (FixLogerrorSystematic.transformLine fuel)).map
      (fun r => r.1) ≠ [] := by
    simp only [ne_eq, List.map_eq_nil_iff]
    exact splitNL_ne_nil c
  have hle := joinNL_length_le _ hne
  simp only [List.length_map] at hle
  simpa only [FixLogerrorSystematic.fix_logerror_patterns] using hle

end LogFix
